import Mathlib

/-!
Verification development for the MakelaLLC carpooling application.

The definitions below are shallow embeddings of the TypeScript source:

* the ride search filter/sort pipeline of the find-ride screen
  (`filterRides`, `sortRides` and their composition at the
  `FlatList` data prop, `sortRides(filterRides(rides))`);
* the repository queries of the three ride-loading functions
  (`loadRides` of the find-ride screen, `loadRides` of the search-results
  screen, `loadAvailableRides` of the home screen);
* the booking operations (`handleBookRide` insert, `handleBooking` insert,
  `handlePayment` status update).

JavaScript timestamps are modelled by an abstract `DateTime` carrying the
observables the code reads: `getTime()` as `millis`, the local-time calendar
fields `getFullYear()`/`getMonth()`/`getDate()` as `year`/`month`/`day`, and
the UTC day-start instant used by the search-results screen's ISO-string date
range as `utcDayStartMillis`.  Prices (SQL `DECIMAL(10,2)`, JS `number`) are
modelled by `ℚ`; seat counts (SQL `INTEGER`) by `Int`.
-/

/-- Observables of a JavaScript `Date` value as read by the source code:
`millis` is `getTime()`, and `year`/`month`/`day` are the local-time calendar
fields `getFullYear()`/`getMonth()`/`getDate()`.  `utcDayStartMillis` is the
timestamp of 00:00:00 UTC on the value's UTC calendar day (the instant named
by `toISOString().split('T')[0] + "T00:00:00"`). -/
structure DateTime where
  millis : Int
  year : Int
  month : Int
  day : Int
  utcDayStartMillis : Int
deriving DecidableEq, Repr

/-- Ride status union from the source: 'pending' | 'confirmed' | 'in_progress'
| 'completed' | 'cancelled'. -/
inductive RideStatus where
  | pending
  | confirmed
  | in_progress
  | completed
  | cancelled
deriving DecidableEq, Repr

/-- The Ride record as selected by the ride queries (display-only driver join
omitted: no claim reads the driver fields). -/
structure Ride where
  id : String
  origin_address : String
  destination_address : String
  departure_time : DateTime
  price_per_seat : ℚ
  available_seats : Int
  status : RideStatus
deriving DecidableEq, Repr

/-- Sort options of the find-ride screen. -/
inductive SortOption where
  | price_asc
  | price_desc
  | date_asc
  | date_desc
  | seats_asc
  | seats_desc
deriving DecidableEq, Repr

/-- Filter state of the find-ride screen: `minPrice`, `maxPrice`, `minSeats`
are `number | null`, `selectedDate` is `Date | null`. -/
structure FilterSpec where
  minPrice : Option ℚ
  maxPrice : Option ℚ
  minSeats : Option Int
  selectedDate : Option DateTime
deriving DecidableEq, Repr

/-- Rejection test for the `minPrice` filter, translating
`if (minPrice && ride.price_per_seat < minPrice) return false`.
A JS number is truthy iff it is neither 0 nor NaN; `parseInt` of a nonempty
digit string never yields NaN here, so truthiness is `≠ 0`. -/
def minPriceReject (f : FilterSpec) (r : Ride) : Bool :=
  match f.minPrice with
  | none => false
  | some p => decide (p ≠ 0) && decide (r.price_per_seat < p)

/-- Rejection test for the `maxPrice` filter, translating
`if (maxPrice && ride.price_per_seat > maxPrice) return false`. -/
def maxPriceReject (f : FilterSpec) (r : Ride) : Bool :=
  match f.maxPrice with
  | none => false
  | some p => decide (p ≠ 0) && decide (p < r.price_per_seat)

/-- Rejection test for the `minSeats` filter, translating
`if (minSeats && ride.available_seats < minSeats) return false`. -/
def minSeatsReject (f : FilterSpec) (r : Ride) : Bool :=
  match f.minSeats with
  | none => false
  | some s => decide (s ≠ 0) && decide (r.available_seats < s)

/-- Calendar-day test of the date filter: the ride is kept iff
`getDate`, `getMonth` and `getFullYear` of the ride's departure time all
equal those of the selected date (local-time fields). -/
def sameCalendarDay (a b : DateTime) : Bool :=
  a.day == b.day && a.month == b.month && a.year == b.year

/-- Rejection test for the date filter, translating the
`if (selectedDate) { ... if (getDate/getMonth/getFullYear differ) return
false }` block.  A JS `Date` object is always truthy, so presence alone
activates the test. -/
def dateReject (f : FilterSpec) (r : Ride) : Bool :=
  match f.selectedDate with
  | none => false
  | some d => !(sameCalendarDay r.departure_time d)

/-- A ride survives `filterRides` iff none of the four rejection tests fires
(the source returns `false` at the first firing test, `true` otherwise). -/
def ridePasses (f : FilterSpec) (r : Ride) : Bool :=
  !(minPriceReject f r) && !(maxPriceReject f r) &&
    !(minSeatsReject f r) && !(dateReject f r)

/-- The `filterRides` function of the find-ride screen:
`rides.filter(ride => ...)`. -/
def filterRides (f : FilterSpec) (rides : List Ride) : List Ride :=
  rides.filter (ridePasses f)

/-- Numeric sort key of each comparator branch of `sortRides`; the source
comparator for option `k` is exactly `fun a b => sortKey k a - sortKey k b`
(for the descending options, `b.field - a.field = (-a.field) - (-b.field)`).
Timestamps enter through `new Date(departure_time).getTime()`. -/
def sortKey : SortOption → Ride → ℚ
  | .price_asc, r => r.price_per_seat
  | .price_desc, r => -r.price_per_seat
  | .date_asc, r => (r.departure_time.millis : ℚ)
  | .date_desc, r => -(r.departure_time.millis : ℚ)
  | .seats_asc, r => (r.available_seats : ℚ)
  | .seats_desc, r => -(r.available_seats : ℚ)

/-- Stable insertion of `a` into `l`, placing `a` before every element with a
key `≥` its own that it meets. -/
def insertByKey (key : Ride → ℚ) (a : Ride) : List Ride → List Ride
  | [] => [a]
  | b :: l => if key a ≤ key b then a :: b :: l else b :: insertByKey key a l

/-- Stable sort by ascending key.  `Array.prototype.sort` with a consistent
comparator is specified (ES2019) to produce the unique stable sorted
permutation; a stable insertion sort realises that specification. -/
def stableSortByKey (key : Ride → ℚ) : List Ride → List Ride
  | [] => []
  | a :: l => insertByKey key a (stableSortByKey key l)

/-- The `sortRides` function of the find-ride screen:
`[...rides].sort(comparator)` (the spread copies, so the input list is not
mutated; the comparator for option `k` is the key difference). -/
def sortRides (k : SortOption) (rides : List Ride) : List Ride :=
  stableSortByKey (sortKey k) rides

/-- The pipeline as composed at the list's data prop:
`sortRides(filterRides(rides))`. -/
def applyPipeline (rides : List Ride) (f : FilterSpec) (k : SortOption) :
    List Ride :=
  sortRides k (filterRides f rides)

/-- Booking / passenger-request status values used by the booking flow. -/
inductive BookingStatus where
  | pending
  | paid
  | confirmed
  | cancelled
deriving DecidableEq, Repr

/-- Booking / passenger-request row.  `seats_booked` is optional because the
search-results screen's insert into `passenger_requests` omits it. -/
structure Booking where
  ride_id : String
  passenger_id : String
  seats_booked : Option Int
  status : BookingStatus
deriving DecidableEq, Repr

/-- The backend tables touched by the booking flow: `rides`, `bookings`
(find-ride screen insert) and `passenger_requests` (search-results screen
insert, booking-confirmation screen update). -/
structure DB where
  rides : List Ride
  bookings : List Booking
  passenger_requests : List Booking
deriving DecidableEq, Repr

/-- The `handleBookRide` operation of the find-ride screen: an unconditional
insert of `{ ride_id, passenger_id: user.id, seats_booked: 1, status:
'pending' }` into `bookings`.  No availability check is performed and no
other table is touched. -/
def handleBookRide (db : DB) (rideId userId : String) : DB :=
  { db with
      bookings := db.bookings ++
        [{ ride_id := rideId, passenger_id := userId,
           seats_booked := some 1, status := .pending }] }

/-- The `handleBooking` operation of the search-results screen: an
unconditional insert of `{ ride_id, passenger_id: user.id, status:
'pending' }` into `passenger_requests` (no `seats_booked` field). -/
def handleBooking (db : DB) (rideId userId : String) : DB :=
  { db with
      passenger_requests := db.passenger_requests ++
        [{ ride_id := rideId, passenger_id := userId,
           seats_booked := none, status := .pending }] }

/-- The `handlePayment` operation of the booking-confirmation screen:
`update passenger_requests set status = 'paid' where ride_id = rideId and
passenger_id = user.id`.  The update is not conditioned on the row's current
status, and no other table (in particular not `rides`) is touched. -/
def handlePayment (db : DB) (rideId userId : String) : DB :=
  { db with
      passenger_requests := db.passenger_requests.map fun b =>
        if b.ride_id == rideId && b.passenger_id == userId then
          { b with status := .paid }
        else b }

/-- Test that the character list `l` starts with the character list `sub`. -/
def startsWithChars : List Char → List Char → Bool
  | _, [] => true
  | [], _ :: _ => false
  | d :: ds, c :: cs => c == d && startsWithChars ds cs

/-- Test that the character list `sub` occurs contiguously in `l`. -/
def containsChars : List Char → List Char → Bool
  | [], sub => sub.isEmpty
  | d :: ds, sub => startsWithChars (d :: ds) sub || containsChars ds sub

/-- Case-insensitive substring containment, modelling the PostgREST
`ilike('%pattern%')` filter built by the search-results screen. -/
def ilikeContains (field pattern : String) : Bool :=
  containsChars field.toLower.toList pattern.toLower.toList

/-- Route parameters consumed by the search-results screen's `loadRides`.
`originActive`/`destActive` record the truthiness of the coordinate pair
guarding each address filter; the numeric fields hold the `parseInt` of the
corresponding (truthy, hence present) string parameter. -/
structure SearchParams where
  originActive : Bool
  originAddress : String
  destActive : Bool
  destAddress : String
  date : Option DateTime
  seats : Option Int
  minPrice : Option ℚ
  maxPrice : Option ℚ
deriving DecidableEq, Repr

/-- Row eligibility under the query built by the search-results screen's
`loadRides`: the floor conditions `status = 'pending'`,
`available_seats > 0`, `departure_time >= now`, then each present route
parameter.  The date parameter becomes the ISO-string range
`[T00:00:00, T23:59:59)` on the parameter's UTC calendar day, i.e. the
half-open interval of 86399 seconds from that day's UTC start instant. -/
def eligibleSearch (now : Int) (p : SearchParams) (r : Ride) : Bool :=
  r.status == .pending && decide (0 < r.available_seats) &&
    decide (now ≤ r.departure_time.millis) &&
    (if p.originActive then ilikeContains r.origin_address p.originAddress
     else true) &&
    (if p.destActive then ilikeContains r.destination_address p.destAddress
     else true) &&
    (match p.date with
     | none => true
     | some d =>
         decide (d.utcDayStartMillis ≤ r.departure_time.millis) &&
           decide (r.departure_time.millis < d.utcDayStartMillis + 86399000)) &&
    (match p.seats with
     | none => true
     | some s => decide (s ≤ r.available_seats)) &&
    (match p.minPrice with
     | none => true
     | some q => decide (q ≤ r.price_per_seat)) &&
    (match p.maxPrice with
     | none => true
     | some q => decide (r.price_per_seat ≤ q))

/-- The `loadRides` query of the find-ride screen over a rides table:
`eq(status,'pending')`, `gte(departure_time, now)`,
`gt(available_seats, 0)`, no user criteria. -/
def loadRidesFindRide (table : List Ride) (now : Int) : List Ride :=
  table.filter fun r =>
    r.status == .pending && decide (now ≤ r.departure_time.millis) &&
      decide (0 < r.available_seats)

/-- The `loadRides` query of the search-results screen: floor filter plus the
present route parameters, ordered by `departure_time` ascending. -/
def loadRidesSearch (table : List Ride) (now : Int) (p : SearchParams) :
    List Ride :=
  stableSortByKey (fun r => (r.departure_time.millis : ℚ))
    (table.filter (eligibleSearch now p))

/-- The `loadAvailableRides` query of the home screen:
`eq(status,'pending')`, `gt(available_seats, 0)` — and no condition
on `departure_time`. -/
def loadAvailableRides (table : List Ride) : List Ride :=
  table.filter fun r =>
    r.status == .pending && decide (0 < r.available_seats)

/-- Failure kinds named by the spec's error taxonomy for the search
operation; used to test whether the code distinguishes them. -/
inductive TransportFailure where
  | networkUnavailable
  | serverRejected
deriving DecidableEq, Repr

/-- Component state of the search-results screen touched by `loadRides`. -/
structure RidesScreenState where
  rides : List Ride
  error : Option String
  loading : Bool
  refreshing : Bool
deriving DecidableEq, Repr

/-- State effect of the search-results screen's `loadRides` as a function of
the transport outcome: on success `setError(null)`, `setRides(data || [])`;
on failure the error is caught, logged, and `setError('Failed to load
rides')`; `finally` clears `loading` and `refreshing`.  The failure value
itself is dropped after logging. -/
def loadRidesSearchEffect (resp : Except TransportFailure (List Ride))
    (s : RidesScreenState) : RidesScreenState :=
  match resp with
  | .ok ridesData =>
      { s with error := none, rides := ridesData,
               loading := false, refreshing := false }
  | .error _ =>
      { s with error := some "Failed to load rides",
               loading := false, refreshing := false }

/-- Component state of the find-ride screen touched by its `loadRides`
(the screen keeps no error state). -/
structure FindRideScreenState where
  rides : List Ride
  loading : Bool
  refreshing : Bool
deriving DecidableEq, Repr

/-- State effect of the find-ride screen's `loadRides`: on success
`setRides(data || [])`; on failure the error is caught and logged only; both
paths clear `loading` and `refreshing`. -/
def loadRidesFindRideEffect (resp : Except TransportFailure (List Ride))
    (s : FindRideScreenState) : FindRideScreenState :=
  match resp with
  | .ok ridesData =>
      { s with rides := ridesData, loading := false, refreshing := false }
  | .error _ =>
      { s with loading := false, refreshing := false }

/-- Filter predicate in the words of the filter-conjunction claim: every
present (non-null) field is enforced, `minPrice`/`maxPrice` as inclusive
bounds on `price_per_seat`, `minSeats` as an inclusive lower bound on
`available_seats`, the date as a calendar-day match.  Stated for comparison
with the source-derived `ridePasses`. -/
def specPresentPasses (f : FilterSpec) (r : Ride) : Bool :=
  (match f.minPrice with
   | none => true
   | some p => decide (p ≤ r.price_per_seat)) &&
  (match f.maxPrice with
   | none => true
   | some p => decide (r.price_per_seat ≤ p)) &&
  (match f.minSeats with
   | none => true
   | some s => decide (s ≤ r.available_seats)) &&
  (match f.selectedDate with
   | none => true
   | some d => sameCalendarDay r.departure_time d)

/-- Filter stage in the words of the filter-conjunction claim. -/
def specFilterRides (f : FilterSpec) (rides : List Ride) : List Ride :=
  rides.filter (specPresentPasses f)

/-- Transition relation asserted by the booking-lifecycle claim: status
sequences are subsequences of pending → paid → confirmed or of
pending → cancelled / paid → cancelled, so the only permitted single steps
are these four.  Stated for comparison with the embedded operations. -/
def claimAllowedTransition (a b : BookingStatus) : Bool :=
  (a == .pending && b == .paid) || (a == .paid && b == .confirmed) ||
    (a == .pending && b == .cancelled) || (a == .paid && b == .cancelled)

/-- Membership in an insertion is membership in the inserted element or the
original list. -/
theorem mem_insertByKey {key : Ride → ℚ} {a x : Ride} {l : List Ride}
    (h : x ∈ insertByKey key a l) : x = a ∨ x ∈ l := by
  induction l with
  | nil =>
    rw [insertByKey] at h
    exact Or.inl (List.mem_singleton.mp h)
  | cons b l ih =>
    rw [insertByKey] at h
    split at h
    · rcases List.mem_cons.mp h with h | h
      · exact Or.inl h
      · exact Or.inr h
    · rcases List.mem_cons.mp h with h | h
      · exact Or.inr (List.mem_cons.mpr (Or.inl h))
      · rcases ih h with h | h
        · exact Or.inl h
        · exact Or.inr (List.mem_cons.mpr (Or.inr h))

/-- Insertion into a list sorted by key keeps it sorted by key. -/
theorem pairwise_insertByKey {key : Ride → ℚ} {a : Ride} {l : List Ride}
    (h : l.Pairwise fun x y => key x ≤ key y) :
    (insertByKey key a l).Pairwise fun x y => key x ≤ key y := by
  induction l with
  | nil => simp [insertByKey]
  | cons b l ih =>
    rw [List.pairwise_cons] at h
    obtain ⟨hb, hl⟩ := h
    rw [insertByKey]
    split
    · rename_i hab
      rw [List.pairwise_cons]
      refine ⟨?_, List.pairwise_cons.mpr ⟨hb, hl⟩⟩
      intro y hy
      rcases List.mem_cons.mp hy with rfl | hy
      · exact hab
      · exact le_trans hab (hb y hy)
    · rename_i hab
      rw [List.pairwise_cons]
      refine ⟨?_, ih hl⟩
      intro y hy
      rcases mem_insertByKey hy with rfl | hy
      · exact le_of_lt (not_le.mp hab)
      · exact hb y hy

/-- The stable sort produces a list sorted by key. -/
theorem pairwise_stableSortByKey (key : Ride → ℚ) (l : List Ride) :
    (stableSortByKey key l).Pairwise fun x y => key x ≤ key y := by
  induction l with
  | nil => simp [stableSortByKey]
  | cons a l ih => exact pairwise_insertByKey ih

/-- Sorting a list already sorted by key leaves it unchanged. -/
theorem stableSortByKey_eq_of_pairwise {key : Ride → ℚ} {l : List Ride}
    (h : l.Pairwise fun x y => key x ≤ key y) :
    stableSortByKey key l = l := by
  induction l with
  | nil => rfl
  | cons a l ih =>
    rw [List.pairwise_cons] at h
    obtain ⟨ha, hl⟩ := h
    rw [stableSortByKey, ih hl]
    cases l with
    | nil => rfl
    | cons b l' =>
      rw [insertByKey, if_pos (ha b (List.mem_cons_self b l'))]

/-- Elements of the sorted list are elements of the input. -/
theorem mem_stableSortByKey {key : Ride → ℚ} {x : Ride} {l : List Ride}
    (h : x ∈ stableSortByKey key l) : x ∈ l := by
  induction l with
  | nil => simp [stableSortByKey] at h
  | cons a l ih =>
    rw [stableSortByKey] at h
    rcases mem_insertByKey h with rfl | h
    · exact List.mem_cons_self x l
    · exact List.mem_cons.mpr (Or.inr (ih h))

/-- Insertion does not reorder the elements that share any fixed key value:
the inserted element passes only elements with strictly smaller keys. -/
theorem filter_keyEq_insertByKey (key : Ride → ℚ) (a : Ride) (l : List Ride)
    (v : ℚ) :
    (insertByKey key a l).filter (fun x => decide (key x = v)) =
      (a :: l).filter fun x => decide (key x = v) := by
  induction l with
  | nil => rfl
  | cons b l ih =>
    rw [insertByKey]
    split
    · rfl
    · rename_i hab
      by_cases ha : key a = v <;> by_cases hb : key b = v
      · exact absurd (le_of_eq (ha.trans hb.symm)) hab
      all_goals simp [List.filter_cons, ih, ha, hb]

/-- The stable sort keeps the elements with any fixed key value in their
relative input order. -/
theorem filter_keyEq_stableSortByKey (key : Ride → ℚ) (l : List Ride)
    (v : ℚ) :
    (stableSortByKey key l).filter (fun x => decide (key x = v)) =
      l.filter fun x => decide (key x = v) := by
  induction l with
  | nil => rfl
  | cons a l ih =>
    rw [stableSortByKey, filter_keyEq_insertByKey, List.filter_cons,
      List.filter_cons, ih]

/-- Filtering the pipeline output again removes nothing: every element of
the output already passes the filter. -/
theorem filterRides_applyPipeline (f : FilterSpec) (R : List Ride)
    (k : SortOption) :
    filterRides f (applyPipeline R f k) = applyPipeline R f k := by
  apply List.filter_eq_self.mpr
  intro x hx
  exact (List.mem_filter.mp (mem_stableSortByKey hx)).2

/-- Sample departure instant on a given local calendar day. -/
def dtJune1 : DateTime :=
  { millis := 200, year := 2024, month := 5, day := 1,
    utcDayStartMillis := 100 }

/-- Sample departure instant on an earlier local calendar day. -/
def dtApril30 : DateTime :=
  { millis := 0, year := 2024, month := 3, day := 30,
    utcDayStartMillis := 0 }

/-- Sample pending ride with two free seats. -/
def rideA : Ride :=
  { id := "r1", origin_address := "Kampala", destination_address := "Entebbe",
    departure_time := dtJune1, price_per_seat := 5, available_seats := 2,
    status := .pending }

/-- Sample pending ride whose departure instant is already in the past. -/
def ridePast : Ride :=
  { id := "r9", origin_address := "Jinja", destination_address := "Kampala",
    departure_time := dtApril30, price_per_seat := 3, available_seats := 1,
    status := .pending }

/-- Sample pending ride with no free seats. -/
def rideFull : Ride :=
  { id := "r3", origin_address := "Kampala", destination_address := "Gulu",
    departure_time := dtJune1, price_per_seat := 4, available_seats := 0,
    status := .pending }

/-- Database with one pending passenger request for a ride with three free
seats. -/
def dbPendingRequest : DB :=
  { rides := [{ rideA with id := "r2", available_seats := 3 }],
    bookings := [],
    passenger_requests :=
      [{ ride_id := "r2", passenger_id := "u1", seats_booked := some 2,
         status := .pending }] }

/-- Database whose only ride has zero available seats. -/
def dbRideFull : DB :=
  { rides := [rideFull], bookings := [], passenger_requests := [] }

/-- Database with one already confirmed passenger request. -/
def dbConfirmedRequest : DB :=
  { rides := [rideA], bookings := [],
    passenger_requests :=
      [{ ride_id := "r1", passenger_id := "u1", seats_booked := some 1,
         status := .confirmed }] }

/-- C1: behaviour of the code at the failing input.  The payment operation
never writes the rides table (first conjunct, for every database), so when
the pending request transitions to paid (second conjunct) the ride's
`available_seats` stays at 3 instead of being decremented by the request's
`seats_booked = 2` (third conjunct). -/
theorem claim_C1_no_seat_decrement :
    (∀ (db : DB) (rideId userId : String),
      (handlePayment db rideId userId).rides = db.rides) ∧
    (handlePayment dbPendingRequest "r2" "u1").passenger_requests =
      [{ ride_id := "r2", passenger_id := "u1", seats_booked := some 2,
         status := .paid }] ∧
    (handlePayment dbPendingRequest "r2" "u1").rides.map
        Ride.available_seats = [3] :=
  ⟨fun _ _ _ => rfl, by decide, by decide⟩

/-- C2: behaviour of the code at the failing input.  `handleBookRide` is an
unconditional insert for every database (first conjunct): booking one seat on
a ride with `available_seats = 0` (second conjunct) commits a pending booking
(third conjunct) instead of failing with `SeatsUnavailable` — no such error
exists anywhere in the codebase. -/
theorem claim_C2_overbooking_commits :
    (∀ (db : DB) (rideId userId : String),
      handleBookRide db rideId userId =
        { db with
            bookings := db.bookings ++
              [{ ride_id := rideId, passenger_id := userId,
                 seats_booked := some 1, status := .pending }] }) ∧
    rideFull.available_seats = 0 ∧
    (handleBookRide dbRideFull "r3" "u1").bookings =
      [{ ride_id := "r3", passenger_id := "u1", seats_booked := some 1,
         status := .pending }] :=
  ⟨fun _ _ _ => rfl, by decide, by decide⟩

/-- C4: behaviour of the code at the failing input.  `handlePayment` carries
no guard on the row's current status, so re-triggering payment against an
already confirmed request moves it confirmed → paid — a step outside the
lifecycle the claim asserts (formalised by `claimAllowedTransition`). -/
theorem claim_C4_unguarded_payment :
    (handlePayment dbConfirmedRequest "r1" "u1").passenger_requests =
      [{ ride_id := "r1", passenger_id := "u1", seats_booked := some 1,
         status := .paid }] ∧
    claimAllowedTransition .confirmed .paid = false :=
  ⟨by decide, by decide⟩

/-- Initial component state of the search-results screen. -/
def ridesScreenInit : RidesScreenState :=
  { rides := [], error := none, loading := true, refreshing := false }

/-- C8 counterexample: the two transport-failure kinds named by the claim
produce identical screen states — the search operation returns no failure
value and does not distinguish `NetworkUnavailable` from `ServerRejected`
(the caught error object is dropped after logging). -/
theorem claim_C8_counterexample :
    loadRidesSearchEffect (.error .networkUnavailable) ridesScreenInit =
      loadRidesSearchEffect (.error .serverRejected) ridesScreenInit :=
  rfl

/-- C8 (amended): on transport failure the search-results screen records only
the fixed generic message, identically for every failure kind, leaving the
ride list unchanged; a successful search with zero matches yields
`rides = []` with `error = none`, distinguishable from a failure only by the
error field; the find-ride screen swallows failures entirely (logging
aside). -/
theorem claim_C8_generic_error :
    (∀ (s : RidesScreenState) (e : TransportFailure),
      loadRidesSearchEffect (.error e) s =
        { s with error := some "Failed to load rides", loading := false,
                 refreshing := false }) ∧
    (∀ (s : RidesScreenState) (data : List Ride),
      loadRidesSearchEffect (.ok data) s =
        { s with rides := data, error := none, loading := false,
                 refreshing := false }) ∧
    (∀ (s : RidesScreenState) (e : TransportFailure),
      (loadRidesSearchEffect (.ok []) s).error ≠
        (loadRidesSearchEffect (.error e) s).error) ∧
    (∀ (s : FindRideScreenState) (e : TransportFailure),
      loadRidesFindRideEffect (.error e) s =
        { s with loading := false, refreshing := false }) := by
  refine ⟨fun s e => rfl, fun s data => rfl, fun s e => ?_, fun s e => rfl⟩
  simp [loadRidesSearchEffect]

/-- Characterisation of the `minPrice` check: it passes iff a present,
non-zero bound is an inclusive lower bound on the price. -/
theorem minPriceReject_eq_false (f : FilterSpec) (r : Ride) :
    minPriceReject f r = false ↔
      ∀ p : ℚ, f.minPrice = some p → p ≠ 0 → p ≤ r.price_per_seat := by
  cases h : f.minPrice with
  | none => simp [minPriceReject, h]
  | some p =>
    by_cases hp : p = 0 <;> simp [minPriceReject, h, hp, not_lt]

/-- Characterisation of the `maxPrice` check: it passes iff a present,
non-zero bound is an inclusive upper bound on the price. -/
theorem maxPriceReject_eq_false (f : FilterSpec) (r : Ride) :
    maxPriceReject f r = false ↔
      ∀ p : ℚ, f.maxPrice = some p → p ≠ 0 → r.price_per_seat ≤ p := by
  cases h : f.maxPrice with
  | none => simp [maxPriceReject, h]
  | some p =>
    by_cases hp : p = 0 <;> simp [maxPriceReject, h, hp, not_lt]

/-- Characterisation of the `minSeats` check: it passes iff a present,
non-zero bound is an inclusive lower bound on the seat count. -/
theorem minSeatsReject_eq_false (f : FilterSpec) (r : Ride) :
    minSeatsReject f r = false ↔
      ∀ s : Int, f.minSeats = some s → s ≠ 0 → s ≤ r.available_seats := by
  cases h : f.minSeats with
  | none => simp [minSeatsReject, h]
  | some s =>
    by_cases hs : s = 0 <;> simp [minSeatsReject, h, hs, not_lt]

/-- Characterisation of the date check: it passes iff a present selected date
shares the ride's local calendar day. -/
theorem dateReject_eq_false (f : FilterSpec) (r : Ride) :
    dateReject f r = false ↔
      ∀ d : DateTime, f.selectedDate = some d →
        sameCalendarDay r.departure_time d = true := by
  cases h : f.selectedDate with
  | none => simp [dateReject, h]
  | some d => simp [dateReject, h]

/-- A ride passes `filterRides` iff it satisfies every active filter field,
a numeric field being active iff present and non-zero, the date field iff
present. -/
theorem ridePasses_iff (f : FilterSpec) (r : Ride) :
    ridePasses f r = true ↔
      (∀ p : ℚ, f.minPrice = some p → p ≠ 0 → p ≤ r.price_per_seat) ∧
      (∀ p : ℚ, f.maxPrice = some p → p ≠ 0 → r.price_per_seat ≤ p) ∧
      (∀ s : Int, f.minSeats = some s → s ≠ 0 → s ≤ r.available_seats) ∧
      (∀ d : DateTime, f.selectedDate = some d →
        sameCalendarDay r.departure_time d = true) := by
  rw [ridePasses]
  simp only [Bool.and_eq_true, Bool.not_eq_true']
  rw [minPriceReject_eq_false, maxPriceReject_eq_false,
    minSeatsReject_eq_false, dateReject_eq_false]
  tauto

/-- Filter whose only present field is a zero `maxPrice`. -/
def zeroMaxFilter : FilterSpec :=
  { minPrice := none, maxPrice := some 0, minSeats := none,
    selectedDate := none }

/-- C3 counterexample: with the present (non-null) bound `maxPrice = 0`, the
ride priced 5 fails the claimed predicate — `specFilterRides`, which enforces
every present field, drops it — yet `filterRides` keeps it, because the
truthiness guard deactivates zero-valued numeric filters. -/
theorem claim_C3_counterexample :
    zeroMaxFilter.maxPrice = some 0 ∧
    filterRides zeroMaxFilter [rideA] = [rideA] ∧
    specFilterRides zeroMaxFilter [rideA] = [] := by
  refine ⟨rfl, by decide, by decide⟩

/-- C3 (amended): `filterRides` returns exactly the rides of the input
satisfying every active predicate conjunctively, where a numeric field is
active iff it is present and non-zero (the code guards each predicate with a
JS truthiness test) and the date field is active iff present;
`minPrice`/`maxPrice` are inclusive bounds on `price_per_seat` and `minSeats`
is an inclusive lower bound on `available_seats`; a ride failing any active
predicate is excluded, and inactive fields impose no constraint. -/
theorem claim_C3_conjunctive_filter (f : FilterSpec) (R : List Ride)
    (r : Ride) :
    r ∈ filterRides f R ↔
      r ∈ R ∧
      (∀ p : ℚ, f.minPrice = some p → p ≠ 0 → p ≤ r.price_per_seat) ∧
      (∀ p : ℚ, f.maxPrice = some p → p ≠ 0 → r.price_per_seat ≤ p) ∧
      (∀ s : Int, f.minSeats = some s → s ≠ 0 → s ≤ r.available_seats) ∧
      (∀ d : DateTime, f.selectedDate = some d →
        sameCalendarDay r.departure_time d = true) := by
  rw [filterRides, List.mem_filter, ridePasses_iff]

/-- C5: the pipeline is idempotent (applying it to its own output reproduces
that output), deterministic (identical inputs give the identical ordered
list), and stable: for every key value `v`, the rides of the output whose
sort key equals `v` are exactly the passing rides of the input with that key,
in the input's relative order (the right-hand side filters the input list
directly, so it lists those rides in input order). -/
theorem claim_C5_idempotent_stable (R : List Ride) (f : FilterSpec)
    (k : SortOption) :
    applyPipeline (applyPipeline R f k) f k = applyPipeline R f k ∧
    applyPipeline R f k = applyPipeline R f k ∧
    ∀ v : ℚ,
      (applyPipeline R f k).filter (fun r => decide (sortKey k r = v)) =
        R.filter fun r => ridePasses f r && decide (sortKey k r = v) := by
  refine ⟨?_, rfl, ?_⟩
  · show sortRides k (filterRides f (applyPipeline R f k)) = _
    rw [filterRides_applyPipeline]
    exact stableSortByKey_eq_of_pairwise (pairwise_stableSortByKey _ _)
  · intro v
    rw [applyPipeline, sortRides, filter_keyEq_stableSortByKey, filterRides,
      List.filter_filter]
    apply List.filter_congr
    intro x _
    exact Bool.and_comm _ _

/-- Filter whose only present field is the selected date `dtJune1`. -/
def juneFilter : FilterSpec :=
  { minPrice := none, maxPrice := none, minSeats := none,
    selectedDate := some dtJune1 }

/-- C6: with a present date filter, the date check passes exactly on rides
whose departure shares the selected date's local calendar day (first
conjunct); it reads only the three calendar fields, never the time of day or
the timestamp, so it is not a time range (second conjunct); and every ride
the filter stage returns shares that calendar day (third conjunct). -/
theorem claim_C6_calendar_day (f : FilterSpec) (d : DateTime)
    (h : f.selectedDate = some d) :
    (∀ r : Ride, dateReject f r = false ↔
      (r.departure_time.day = d.day ∧ r.departure_time.month = d.month ∧
        r.departure_time.year = d.year)) ∧
    (∀ r₁ r₂ : Ride,
      r₁.departure_time.day = r₂.departure_time.day →
      r₁.departure_time.month = r₂.departure_time.month →
      r₁.departure_time.year = r₂.departure_time.year →
      dateReject f r₁ = dateReject f r₂) ∧
    (∀ (R : List Ride) (r : Ride), r ∈ filterRides f R →
      sameCalendarDay r.departure_time d = true) := by
  refine ⟨?_, ?_, ?_⟩
  · intro r
    simp [dateReject, h, sameCalendarDay, and_assoc]
  · intro r₁ r₂ h1 h2 h3
    simp [dateReject, h, sameCalendarDay, h1, h2, h3]
  · intro R r hr
    rw [filterRides, List.mem_filter] at hr
    obtain ⟨-, -, -, h4⟩ := (ridePasses_iff f r).mp hr.2
    exact h4 d h

/-- C6 witness: the hypothesis holds and the theorem applies at the concrete
filter `juneFilter` and ride `rideA`. -/
theorem claim_C6_witness :
    juneFilter.selectedDate = some dtJune1 ∧
    (dateReject juneFilter rideA = false ↔
      (rideA.departure_time.day = dtJune1.day ∧
        rideA.departure_time.month = dtJune1.month ∧
        rideA.departure_time.year = dtJune1.year)) :=
  ⟨rfl, (claim_C6_calendar_day juneFilter dtJune1 rfl).1 rideA⟩

/-- C7 counterexample: for a query at `now = 100`, the home screen's
`loadAvailableRides` returns `ridePast`, a pending ride with a free seat
whose departure instant 0 lies before the query time — the claimed
`departure_time >= now` floor is not applied on this search. -/
theorem claim_C7_counterexample :
    loadAvailableRides [ridePast] = [ridePast] ∧
    ridePast.status = .pending ∧ 0 < ridePast.available_seats ∧
    ridePast.departure_time.millis < 100 := by
  refine ⟨by decide, rfl, by decide, by decide⟩

/-- C7 (amended): every ride returned by the find-ride screen's query and by
the search-results screen's query (whatever the user criteria) has status
pending, a positive seat count and a departure at or after the query time;
the home screen's `loadAvailableRides` enforces only the status and seat
conditions, not the departure-time floor. -/
theorem claim_C7_floor_filter :
    (∀ (table : List Ride) (now : Int) (r : Ride),
      r ∈ loadRidesFindRide table now →
        r.status = .pending ∧ 0 < r.available_seats ∧
          now ≤ r.departure_time.millis) ∧
    (∀ (table : List Ride) (now : Int) (p : SearchParams) (r : Ride),
      r ∈ loadRidesSearch table now p →
        r.status = .pending ∧ 0 < r.available_seats ∧
          now ≤ r.departure_time.millis) ∧
    (∀ (table : List Ride) (r : Ride),
      r ∈ loadAvailableRides table →
        r.status = .pending ∧ 0 < r.available_seats) := by
  refine ⟨?_, ?_, ?_⟩
  · intro table now r hr
    rw [loadRidesFindRide] at hr
    have h := (List.mem_filter.mp hr).2
    simp only [Bool.and_eq_true, beq_iff_eq, decide_eq_true_eq] at h
    tauto
  · intro table now p r hr
    rw [loadRidesSearch] at hr
    have h := (List.mem_filter.mp (mem_stableSortByKey hr)).2
    rw [eligibleSearch] at h
    simp only [Bool.and_eq_true, beq_iff_eq, decide_eq_true_eq] at h
    tauto
  · intro table r hr
    rw [loadAvailableRides] at hr
    have h := (List.mem_filter.mp hr).2
    simp only [Bool.and_eq_true, beq_iff_eq, decide_eq_true_eq] at h
    tauto

/-- C7 witness: the membership hypothesis holds and the theorem applies at
the concrete table `[rideA]` and query time 50. -/
theorem claim_C7_witness :
    rideA ∈ loadRidesFindRide [rideA] 50 ∧
    (rideA.status = .pending ∧ 0 < rideA.available_seats ∧
      50 ≤ rideA.departure_time.millis) :=
  ⟨by decide, claim_C7_floor_filter.1 [rideA] 50 rideA (by decide)⟩

/-- Filter with present bounds `minPrice = 5 > maxPrice = 0`. -/
def zeroUpperBoundFilter : FilterSpec :=
  { minPrice := some 5, maxPrice := some 0, minSeats := none,
    selectedDate := none }

/-- Filter with present non-zero bounds `minPrice = 5 > maxPrice = 1`. -/
def emptyRangeFilter : FilterSpec :=
  { minPrice := some 5, maxPrice := some 1, minSeats := none,
    selectedDate := none }

/-- C9 counterexample: with both price bounds present and
`minPrice = 5 > maxPrice = 0`, the pipeline still returns the ride priced 5
rather than the empty list: the truthiness guard deactivates the zero
`maxPrice`, so only the lower bound is enforced. -/
theorem claim_C9_counterexample :
    zeroUpperBoundFilter.minPrice = some 5 ∧
    zeroUpperBoundFilter.maxPrice = some 0 ∧
    applyPipeline [rideA] zeroUpperBoundFilter .price_asc = [rideA] := by
  refine ⟨rfl, rfl, by decide⟩

/-- C9 (amended): the pipeline is a total function (it never throws) and,
whenever both price bounds are present, non-zero and contradictory
(`maxPrice < minPrice`), it returns the empty list; a present zero bound is
deactivated by the truthiness guard and imposes no constraint. -/
theorem claim_C9_contradictory_bounds (R : List Ride) (f : FilterSpec)
    (k : SortOption) (a b : ℚ) (hmin : f.minPrice = some a)
    (hmax : f.maxPrice = some b) (ha : a ≠ 0) (hb : b ≠ 0) (hab : b < a) :
    applyPipeline R f k = [] := by
  have hfil : filterRides f R = [] := by
    rw [filterRides, List.filter_eq_nil_iff]
    intro r _ hp
    obtain ⟨h1, h2, -, -⟩ := (ridePasses_iff f r).mp hp
    have hap := h1 a hmin ha
    have hbp := h2 b hmax hb
    linarith
  rw [applyPipeline, hfil]
  rfl

/-- C9 witness: the hypotheses hold and the theorem applies at the concrete
filter `emptyRangeFilter` with bounds 5 and 1. -/
theorem claim_C9_witness :
    emptyRangeFilter.minPrice = some 5 ∧
    emptyRangeFilter.maxPrice = some 1 ∧
    applyPipeline [rideA] emptyRangeFilter .price_asc = [] :=
  ⟨rfl, rfl,
    claim_C9_contradictory_bounds [rideA] emptyRangeFilter .price_asc 5 1
      rfl rfl (by norm_num) (by norm_num) (by norm_num)⟩

/-- C10: a zero-valued numeric filter field behaves exactly like an absent
one — the truthiness guard deactivates it — so filtering with
`minPrice = 0`, `maxPrice = 0` or `minSeats = 0` returns the same list as
filtering with that field null; in particular `maxPrice = 0` excludes no
ride. -/
theorem claim_C10_zero_means_absent (f : FilterSpec) (R : List Ride) :
    filterRides { f with minPrice := some 0 } R =
      filterRides { f with minPrice := none } R ∧
    filterRides { f with maxPrice := some 0 } R =
      filterRides { f with maxPrice := none } R ∧
    filterRides { f with minSeats := some 0 } R =
      filterRides { f with minSeats := none } R := by
  refine ⟨?_, ?_, ?_⟩ <;>
    · rw [filterRides, filterRides]
      apply List.filter_congr
      intro r _
      simp [ridePasses, minPriceReject, maxPriceReject, minSeatsReject,
        dateReject]

/-- C3 witness: the characterisation applies at the concrete filter
`zeroMaxFilter`, list `[rideA]` and ride `rideA`. -/
theorem claim_C3_witness :
    rideA ∈ filterRides zeroMaxFilter [rideA] ↔
      rideA ∈ [rideA] ∧
      (∀ p : ℚ, zeroMaxFilter.minPrice = some p → p ≠ 0 →
        p ≤ rideA.price_per_seat) ∧
      (∀ p : ℚ, zeroMaxFilter.maxPrice = some p → p ≠ 0 →
        rideA.price_per_seat ≤ p) ∧
      (∀ s : Int, zeroMaxFilter.minSeats = some s → s ≠ 0 →
        s ≤ rideA.available_seats) ∧
      (∀ d : DateTime, zeroMaxFilter.selectedDate = some d →
        sameCalendarDay rideA.departure_time d = true) :=
  claim_C3_conjunctive_filter zeroMaxFilter [rideA] rideA

/-- C5 witness: idempotence applies at a concrete ride list, filter and sort
key. -/
theorem claim_C5_witness :
    applyPipeline (applyPipeline [rideA, rideFull] juneFilter .price_asc)
        juneFilter .price_asc =
      applyPipeline [rideA, rideFull] juneFilter .price_asc :=
  (claim_C5_idempotent_stable [rideA, rideFull] juneFilter .price_asc).1

/-- C8 witness: the failure clause applies at the concrete initial screen
state. -/
theorem claim_C8_witness :
    loadRidesSearchEffect (.error .networkUnavailable) ridesScreenInit =
      { ridesScreenInit with error := some "Failed to load rides",
                             loading := false, refreshing := false } :=
  claim_C8_generic_error.1 ridesScreenInit .networkUnavailable

/-- C10 witness: the `maxPrice` clause applies at the concrete filter
`juneFilter` and list `[rideA]`. -/
theorem claim_C10_witness :
    filterRides { juneFilter with maxPrice := some 0 } [rideA] =
      filterRides { juneFilter with maxPrice := none } [rideA] :=
  (claim_C10_zero_means_absent juneFilter [rideA]).2.1
